import Mathlib

/-!
Verification development for the HR recruitment agent repository.

The definitions below are a shallow embedding of the Python source files
`candidate_shortlisting.py`, `database_manager.py`, `email_templates.py` and
`enhanced_email_system.py`.  Python `float` arithmetic is embedded as exact
rational arithmetic (`ℚ`); Python strings are Lean `String`s; Python `set`s of
strings are represented as duplicate-free lists (`List.dedup`); fallible
operations return `Option`/`Except`.  Each embedded definition carries a
comment naming the Python function it is translated from.
-/

namespace HRAgent

/-! ## String utilities (embedding Python string primitives) -/

/-- Python whitespace class `\s` restricted to ASCII:
space, tab, newline, carriage return, vertical tab, form feed.
(Python also matches further Unicode whitespace; the repository's
inputs are ASCII.) -/
def isPySpace (c : Char) : Bool :=
  c = ' ' || c = '\t' || c = '\n' || c = '\r' || c = '\x0b' || c = '\x0c'

/-- Python `str.lower()` (ASCII case folding, as used by the repository). -/
def pyLower (s : String) : String := String.mk (s.toList.map Char.toLower)

/-- Python `str.strip()`: remove leading and trailing whitespace. -/
def pyStrip (s : String) : String :=
  String.mk (((s.toList.dropWhile isPySpace).reverse.dropWhile isPySpace).reverse)

/-- Helper for `pySplitWs`: scan the character list, `acc` holding the
(reversed) current token. -/
def splitWsAux : List Char → List Char → List String
  | acc, [] => if acc.isEmpty then [] else [String.mk acc.reverse]
  | acc, c :: rest =>
    if isPySpace c then
      if acc.isEmpty then splitWsAux [] rest
      else String.mk acc.reverse :: splitWsAux [] rest
    else splitWsAux (c :: acc) rest

/-- Python `str.split()` with no argument: split on runs of whitespace,
discarding empty tokens. -/
def pySplitWs (s : String) : List String := splitWsAux [] s.toList

/-- Predicate `chStartsWith pat text` holds when `pat` is a leading segment of `text`. -/
def chStartsWith : List Char → List Char → Bool
  | [], _ => true
  | _ :: _, [] => false
  | p :: ps, t :: ts => p == t && chStartsWith ps ts

/-- Predicate `chContains pat text`: Python's substring test `pat in text`
on character lists. -/
def chContains (pat : List Char) : List Char → Bool
  | [] => pat.isEmpty
  | t :: ts => chStartsWith pat (t :: ts) || chContains pat ts

/-- Python's substring containment `needle in haystack` on strings. -/
def strIn (needle haystack : String) : Bool :=
  chContains needle.toList haystack.toList

/-- Python `min(a, b)` on numbers: `a` when `a ≤ b`, else `b`.
(Defined explicitly so that it evaluates inside the kernel.) -/
def pyMin (a b : ℚ) : ℚ := if a ≤ b then a else b

/-! ### Python `set` of strings, represented as duplicate-free lists -/

/-- Python `set(xs)`: duplicate-free list of the elements. -/
def pySetOf (l : List String) : List String := l.dedup

/-- Python set difference `a -= b` (on duplicate-free lists). -/
def setDiff (a b : List String) : List String :=
  a.filter (fun x => decide (x ∉ b))

/-- Python `len(a & b)` for duplicate-free lists `a`, `b`. -/
def setInterLen (a b : List String) : Nat :=
  (a.filter (fun x => decide (x ∈ b))).length

/-- Python `len(a | b)` for duplicate-free lists `a`, `b`. -/
def setUnionLen (a b : List String) : Nat :=
  (a ++ b.filter (fun x => decide (x ∉ a))).length

/-! ## Data model (`candidate_shortlisting.py`) -/

/-- The `@dataclass Candidate` of `candidate_shortlisting.py`. -/
structure Candidate where
  first_name : String
  last_name : String
  full_name : String
  linkedin_url : String
  email : String
  company : String
  position : String
  connected_on : String
deriving DecidableEq, Repr

/-- The `@dataclass JobDescription` of `candidate_shortlisting.py`. -/
structure JobDescription where
  title : String
  company : String
  description : String
  required_skills : List String
  preferred_skills : List String
deriving DecidableEq, Repr

/-- The candidate profile text `f"{candidate.position} {candidate.company}".lower()`
used by both scorers. -/
def candidate_profile_text (c : Candidate) : String :=
  pyLower (c.position ++ " " ++ c.company)

/-! ## `CandidateMatcher` (`candidate_shortlisting.py`, lines 203-274) -/

/-- Threshold `CandidateMatcher.match_threshold` (set in `__init__`). -/
def match_threshold : ℚ := 3/10

/-- Stop words removed in `CandidateMatcher._check_title_similarity`. -/
def common_words_matcher : List String :=
  ["the", "and", "or", "of", "in", "at", "to", "for", "with", "by"]

/-- Embeds `CandidateMatcher._check_title_similarity`: at least one shared
non-stop-word token between candidate title and job title. -/
def check_title_similarity (candidate_title job_title : String) : Bool :=
  let candidate_words := setDiff (pySetOf (pySplitWs (pyLower candidate_title))) common_words_matcher
  let job_words := setDiff (pySetOf (pySplitWs (pyLower job_title))) common_words_matcher
  decide (1 ≤ setInterLen candidate_words job_words)

/-- Result dictionary of `CandidateMatcher.match_candidate_to_job`. -/
structure MatchResult where
  candidate : Candidate
  job_description : JobDescription
  score : ℚ
  matched_skills : List String
  is_match : Bool
deriving DecidableEq, Repr

/-- The skill loop of `match_candidate_to_job`: accumulates the raw score and
the matched-skill list over `all_job_skills` (`+1.0` for a required skill,
`+0.5` for a preferred one, appending each matched skill). -/
def matchSkillStep (required_skills : List String) (candidate_profile : String)
    (acc : ℚ × List String) (skill : String) : ℚ × List String :=
  if strIn (pyLower skill) candidate_profile then
    (acc.1 + (if skill ∈ required_skills then (1 : ℚ) else 1/2), acc.2 ++ [skill])
  else acc

/-- Embeds `CandidateMatcher.match_candidate_to_job`. -/
def match_candidate_to_job (c : Candidate) (j : JobDescription) : MatchResult :=
  let candidate_profile := candidate_profile_text c
  let all_job_skills := j.required_skills ++ j.preferred_skills
  let sm := all_job_skills.foldl (matchSkillStep j.required_skills candidate_profile) (0, [])
  let max_score : ℚ := (j.required_skills.length : ℚ) + (j.preferred_skills.length : ℚ) * (1/2)
  let normalized_score : ℚ := if 0 < max_score then sm.1 / max_score else 0
  let with_bonus : ℚ :=
    if check_title_similarity c.position j.title then normalized_score + 1/5 else normalized_score
  let capped : ℚ := pyMin with_bonus 1
  { candidate := c
    job_description := j
    score := capped
    matched_skills := sm.2
    is_match := decide (match_threshold ≤ capped) }

/-! ## `CandidateShortlister` scoring (`candidate_shortlisting.py`, lines 360-411) -/

/-- Stop words removed in `CandidateShortlister.calculate_title_similarity`
(the matcher's list plus "a" and "an"). -/
def common_words_shortlister : List String :=
  ["the", "and", "or", "of", "in", "at", "to", "for", "with", "by", "a", "an"]

/-- Embeds `CandidateShortlister.calculate_title_similarity`: Jaccard similarity of
stop-word-filtered token sets (0 when the job token set is empty). -/
def calculate_title_similarity (candidate_title job_title : String) : ℚ :=
  let candidate_words := setDiff (pySetOf (pySplitWs (pyLower candidate_title))) common_words_shortlister
  let job_words := setDiff (pySetOf (pySplitWs (pyLower job_title))) common_words_shortlister
  if job_words.isEmpty then 0
  else
    let i := setInterLen candidate_words job_words
    let u := setUnionLen candidate_words job_words
    if 0 < u then (i : ℚ) / (u : ℚ) else 0

/-- Embeds `CandidateShortlister.calculate_match_score`: 0.7 × skill-overlap fraction
(skipped when the skill list is empty) plus 0.3 × title similarity,
capped at 1.0. -/
def calculate_match_score (c : Candidate) (job_skills : List String) (job_title : String) : ℚ :=
  let candidate_text := candidate_profile_text c
  let score1 : ℚ :=
    if job_skills.isEmpty then 0
    else
      let matched := (job_skills.filter (fun skill => strIn (pyLower skill) candidate_text)).length
      let skill_score : ℚ := (matched : ℚ) / (job_skills.length : ℚ)
      0 + skill_score * (7/10)
  let score2 : ℚ := score1 + calculate_title_similarity c.position job_title * (3/10)
  pyMin score2 1

/-- Embeds `CandidateShortlister.get_matched_skills`: the job skills occurring
(case-insensitively, as substrings) in the candidate profile text. -/
def get_matched_skills (c : Candidate) (job_skills : List String) : List String :=
  let candidate_text := candidate_profile_text c
  job_skills.filter (fun skill => strIn (pyLower skill) candidate_text)

/-! ## Ranking (`get_matches_for_job`, `find_matches_for_job`)

Python's `list.sort(key=lambda x: x['score'], reverse=True)` is embedded as a
stable insertion sort by descending score. -/

/-- Insert `m` before the first element of strictly smaller score
(keeping equal-score elements in place, like Python's stable sort). -/
def insertByScoreDesc (f : α → ℚ) (m : α) : List α → List α
  | [] => [m]
  | x :: xs => if f x < f m then m :: x :: xs else x :: insertByScoreDesc f m xs

/-- Sort a list by descending `f`-value (stable). -/
def sortByScoreDesc (f : α → ℚ) (l : List α) : List α :=
  l.foldr (insertByScoreDesc f) []

/-- Embeds `CandidateMatcher.get_matches_for_job`: score every candidate, keep the
matches, sort by descending score, truncate to `top_n`. -/
def get_matches_for_job (candidates : List Candidate) (j : JobDescription)
    (top_n : Nat := 10) : List MatchResult :=
  let matchList := (candidates.map (fun c => match_candidate_to_job c j)).filter
    (fun m => m.is_match)
  (sortByScoreDesc (fun m => m.score) matchList).take top_n

/-- Result dictionary of `CandidateShortlister.find_matches_for_job`. -/
structure FMatch where
  candidate : Candidate
  score : ℚ
  matched_skills : List String
  job_title : String
deriving DecidableEq, Repr

/-- Embeds `CandidateShortlister.find_matches_for_job`.  In the source the job is a
dictionary; `job_title = job_data.get('title', 'Unknown Job')` and
`job_skills = extract_skills_from_job(job_data)` are computed from it before
the loop, so they are taken here as the already-extracted inputs.  The loop
scores every loaded candidate, keeps those with `score >= min_score`, sorts
descending and truncates to `max_candidates`. -/
def find_matches_for_job (candidates : List Candidate) (job_skills : List String)
    (job_title : String) (min_score : ℚ := 1/10) (max_candidates : Nat := 20) :
    List FMatch :=
  let matchList := candidates.filterMap (fun c =>
    let score := calculate_match_score c job_skills job_title
    if min_score ≤ score then
      some { candidate := c
             score := score
             matched_skills := get_matched_skills c job_skills
             job_title := job_title }
    else none)
  (sortByScoreDesc (fun m => m.score) matchList).take max_candidates

/-! ## `JobDescriptionProcessor._extract_skills` (`candidate_shortlisting.py`, lines 161-201) -/

/-- The fixed vocabulary `technical_skills` of `_extract_skills`
(also `common_skills` in `extract_skills_from_job`). -/
def technical_skills : List String :=
  ["python", "java", "javascript", "react", "angular", "vue", "node.js", "django",
   "flask", "spring", "docker", "kubernetes", "aws", "azure", "gcp", "terraform",
   "jenkins", "git", "sql", "postgresql", "mongodb", "redis", "elasticsearch",
   "machine learning", "ai", "data science", "tensorflow", "pytorch", "scikit-learn",
   "html", "css", "typescript", "go", "rust", "c++", "c#", ".net", "php",
   "devops", "ci/cd", "microservices", "restful api", "graphql", "agile", "scrum"]

/-- Index of the leftmost occurrence of `pat` in `text`, if any. -/
def findSubIdx (pat : List Char) : List Char → Option Nat
  | [] => if pat.isEmpty then some 0 else none
  | t :: ts =>
    if chStartsWith pat (t :: ts) then some 0
    else (findSubIdx pat ts).map (fun n => n + 1)

/-- Position where a lazy capture group stops: the earliest occurrence of any
of the stop words, or the end of the text when none occurs. -/
def earliestStopIdx (stops : List (List Char)) (s : List Char) : Nat :=
  (stops.filterMap (fun w => findSubIdx w s)).foldl Nat.min s.length

/-- The shared tail `.*?:(.*?)(?:stops|$)` of both section regexes: the lazy
`.*?:` reaches the first `':'` in the text after the keyword, and the lazy
capture group ends at the earliest following stop word, or at the end. -/
def captureAfterColon (stops : List (List Char)) (afterKey : List Char) :
    Option (List Char) :=
  match findSubIdx [':'] afterKey with
  | none => none
  | some q =>
    let afterColon := afterKey.drop (q + 1)
    some (afterColon.take (earliestStopIdx stops afterColon))

/-- The captured group of
`re.search(r'required.*?:(.*?)(?:preferred|bonus|location|salary|$)', desc, DOTALL)`
on the lowercased description: the leftmost match starts at the first
occurrence of `"required"` (occurrences of `"required"` cannot overlap, so if
no `':'` follows the first one, no later one is followed by `':'` either and
the regex fails); the lazy `.*?:` runs to the first `':'` after it; the lazy
capture ends at the earliest following occurrence of
`"preferred"`/`"bonus"`/`"location"`/`"salary"`, or at the end of the text. -/
def requiredSectionText (desc : List Char) : Option (List Char) :=
  match findSubIdx ("required".toList) desc with
  | none => none
  | some p =>
    captureAfterColon
      ["preferred".toList, "bonus".toList, "location".toList, "salary".toList]
      (desc.drop (p + 8))

/-- The position just after the leftmost match of the alternation
`(?:preferred|bonus)` (the two words cannot overlap each other or themselves,
so the leftmost match is simply at the earlier first occurrence). -/
def altStartEnd (desc : List Char) : Option Nat :=
  match findSubIdx ("preferred".toList) desc, findSubIdx ("bonus".toList) desc with
  | none, none => none
  | some i, none => some (i + 9)
  | none, some k => some (k + 5)
  | some i, some k => if i ≤ k then some (i + 9) else some (k + 5)

/-- The captured group of
`re.search(r'(?:preferred|bonus).*?:(.*?)(?:location|salary|$)', desc, DOTALL)`:
as for `requiredSectionText`, if no `':'` follows the leftmost alternation
match, none follows any later one (their ends only move right), and the regex
fails. -/
def preferredSectionText (desc : List Char) : Option (List Char) :=
  match altStartEnd desc with
  | none => none
  | some e => captureAfterColon ["location".toList, "salary".toList] (desc.drop e)

/-- Embeds `JobDescriptionProcessor._extract_skills`: vocabulary terms found (as
substrings) in the required / preferred sections; when both section scans come
up empty, vocabulary terms found anywhere in the description become the
required list. -/
def extract_skills (description : String) : List String × List String :=
  let desc_lower := (pyLower description).toList
  let required_skills :=
    match requiredSectionText desc_lower with
    | some txt => technical_skills.filter (fun s => chContains s.toList txt)
    | none => []
  let preferred_skills :=
    match preferredSectionText desc_lower with
    | some txt => technical_skills.filter
        (fun s => chContains s.toList txt && !(required_skills.contains s))
    | none => []
  if required_skills.isEmpty && preferred_skills.isEmpty then
    (technical_skills.filter (fun s => chContains s.toList desc_lower), [])
  else
    (required_skills, preferred_skills)

/-- A word character in the sense of the regex class `\w`. -/
def isWordChar (c : Char) : Bool := c.isAlpha || c.isDigit || c = '_'

/-- Modelled from the spec (for comparison with the code's behaviour, not
from the source): "a ... skill term found verbatim (case-insensitive,
whole-word)" / "present as whole-word, case-insensitive substrings" —
the term occurs in the text at some position whose neighbouring characters
(if any) are not word characters, after lowercasing both sides. -/
def specWholeWordMatch (term text : String) : Bool :=
  let pat := (pyLower term).toList
  let txt := (pyLower text).toList
  (List.range (txt.length + 1)).any (fun i =>
    chStartsWith pat (txt.drop i)
    && (decide (i = 0) || !(isWordChar (txt.getD (i - 1) ' ')))
    && (decide (txt.length ≤ i + pat.length) || !(isWordChar (txt.getD (i + pat.length) ' '))))

/-! ## `CandidateDatabase` (`database_manager.py`)

The SQLite `candidates` table is embedded as a list of rows plus the
`AUTOINCREMENT` counter; the side CSV copy (`_add_to_csv`) and timestamps are
not part of the state the claims are about. -/

/-- A row of the `candidates` table. -/
structure DBCandidate where
  id : Nat
  first_name : String
  last_name : String
  full_name : String
  linkedin_url : String
  email : String
  company : String
  position : String
  connected_on : String
  location : String
  skills : String
  experience_summary : String
deriving DecidableEq, Repr

/-- The `candidates` table: rows plus the next `AUTOINCREMENT` id. -/
structure CandDB where
  rows : List DBCandidate
  nextId : Nat
deriving DecidableEq, Repr

/-- The `candidate_data` dictionary passed to `add_candidate`
(`.get(field, '')` defaults embedded as default field values; the
`connected_on` default, the current date in the source, is an arbitrary
input here). -/
structure CandidateInput where
  full_name : String
  linkedin_url : String
  email : String := ""
  company : String := ""
  position : String := ""
  connected_on : String := ""
  location : String := ""
  skills : String := ""
  experience_summary : String := ""
deriving DecidableEq, Repr

/-- Python `full_name.split(' ', 1)`: the text before the first space and the
remainder after it (`''` when there is no space). -/
def splitFirstSpace (s : String) : String × String :=
  let l := s.toList
  let pre := l.takeWhile (fun c => !(c == ' '))
  let rest := l.dropWhile (fun c => !(c == ' '))
  (String.mk pre, match rest with | [] => "" | _ :: t => String.mk t)

/-- Embeds `CandidateDatabase.add_candidate`: validation of the required fields
(a `ValueError` is caught by the surrounding `except`, returning `None`),
then the duplicate check on `linkedin_url` (returning the existing row's id),
then the `INSERT`.  Returns the assigned id and the new table state. -/
def add_candidate (db : CandDB) (d : CandidateInput) : Option Nat × CandDB :=
  if (pyStrip d.full_name).isEmpty || (pyStrip d.linkedin_url).isEmpty then
    (none, db)
  else
    let full_name := pyStrip d.full_name
    let name_parts := splitFirstSpace full_name
    match db.rows.find? (fun r => r.linkedin_url == d.linkedin_url) with
    | some existing => (some existing.id, db)
    | none =>
      let row : DBCandidate :=
        { id := db.nextId
          first_name := name_parts.1
          last_name := name_parts.2
          full_name := full_name
          linkedin_url := d.linkedin_url
          email := d.email
          company := d.company
          position := d.position
          connected_on := d.connected_on
          location := d.location
          skills := d.skills
          experience_summary := d.experience_summary }
      (some db.nextId, { rows := db.rows ++ [row], nextId := db.nextId + 1 })

/-- A row of `connections.csv` as read by `sync_csv_to_db`
(`row.get(column, '')` for the seven columns). -/
structure CsvRow where
  first_name : String
  last_name : String
  url : String
  email : String
  company : String
  position : String
  connected_on : String
deriving DecidableEq, Repr

/-- One iteration of the `sync_csv_to_db` loop.  The source keeps a set
`existing_urls` seeded from the table and extended on every insert; since
every insert also appends its URL to the table, membership in that set always
coincides with membership among the table's URLs, which is checked here
directly.  (The `sqlite3.IntegrityError` duplicate path is unreachable under
this check.) -/
def sync_row (db : CandDB) (row : CsvRow) : CandDB :=
  let linkedin_url := pyStrip row.url
  if linkedin_url.isEmpty || db.rows.any (fun r => r.linkedin_url == linkedin_url) then db
  else
    let full_name := pyStrip (pyStrip row.first_name ++ " " ++ pyStrip row.last_name)
    let newRow : DBCandidate :=
      { id := db.nextId
        first_name := pyStrip row.first_name
        last_name := pyStrip row.last_name
        full_name := full_name
        linkedin_url := linkedin_url
        email := pyStrip row.email
        company := pyStrip row.company
        position := pyStrip row.position
        connected_on := pyStrip row.connected_on
        location := ""
        skills := ""
        experience_summary := "" }
    { rows := db.rows ++ [newRow], nextId := db.nextId + 1 }

/-- Embeds `CandidateDatabase.sync_csv_to_db`: fold the CSV rows into the table. -/
def sync_csv_to_db (db : CandDB) (rows : List CsvRow) : CandDB :=
  rows.foldl sync_row db

/-- Embeds `CandidateDatabase.get_candidates_count`: `SELECT COUNT(*)`. -/
def get_candidates_count (db : CandDB) : Nat := db.rows.length

/-! ## `EmailTemplateRenderer` (`email_templates.py`) -/

/-- A segment of a Python format string: literal text or a `{name}`
placeholder.  The repository's templates (`hr_email_config.EMAIL_TEMPLATES`)
use only plain named fields — no `{{` escapes and no format specs — so a
format string is embedded as a list of segments. -/
inductive TItem where
  | lit (s : String)
  | field (n : String)
deriving DecidableEq, Repr

/-- Python `template.format(**template_vars)`: substitute placeholders left to
right, raising `KeyError` (carrying the missing key) at the first referenced
name that has no value. -/
def pyFormat (vars : String → Option String) : List TItem → Except String String
  | [] => Except.ok ""
  | TItem.lit s :: rest =>
    match pyFormat vars rest with
    | Except.ok t => Except.ok (s ++ t)
    | Except.error k => Except.error k
  | TItem.field n :: rest =>
    match vars n with
    | none => Except.error n
    | some v =>
      match pyFormat vars rest with
      | Except.ok t => Except.ok (v ++ t)
      | Except.error k => Except.error k

/-- An email template: `subject` and `body` format strings. -/
structure EmailTemplate where
  subject : List TItem
  body : List TItem
deriving DecidableEq, Repr

/-- The `{'subject': ..., 'body': ...}` dictionary returned by `render_email`. -/
structure RenderedEmail where
  subject : String
  body : String
deriving DecidableEq, Repr

/-! `_clean_email_body`, step 1: `re.sub(r'\n\s*\n\s*\n', '\n\n', body)`.
The pattern is matched with the regex engine's semantics: leftmost match,
greedy `\s*` with backtracking; replacement is non-overlapping, resuming
after each match. -/

/-- Match `\s*\n` at the start of the text (greedy `\s*`, longest first),
returning the remainder after the match. -/
def matchWsNl : List Char → Option (List Char)
  | [] => none
  | c :: rest =>
    if isPySpace c then
      match matchWsNl rest with
      | some r => some r
      | none => if c = '\n' then some rest else none
    else none

/-- Match `\s*\n\s*\n` at the start of the text (greedy, with backtracking),
returning the remainder after the match. -/
def matchWsNlWsNl : List Char → Option (List Char)
  | [] => none
  | c :: rest =>
    if isPySpace c then
      match matchWsNlWsNl rest with
      | some r => some r
      | none => if c = '\n' then matchWsNl rest else none
    else none

/-- Match the full pattern `\n\s*\n\s*\n` at the start of the text. -/
def matchTripleNl : List Char → Option (List Char)
  | [] => none
  | c :: rest => if c = '\n' then matchWsNlWsNl rest else none

theorem matchWsNl_lt : ∀ {l r : List Char}, matchWsNl l = some r → r.length < l.length := by
  intro l
  induction l with
  | nil => intro r h; simp [matchWsNl] at h
  | cons c rest ih =>
    intro r h
    simp only [matchWsNl] at h
    split at h
    · split at h
      · rename_i r2 heq
        cases h
        exact Nat.lt_trans (ih heq) (by simp)
      · split at h
        · cases h
          simp
        · cases h
    · cases h

theorem matchWsNlWsNl_lt : ∀ {l r : List Char},
    matchWsNlWsNl l = some r → r.length < l.length := by
  intro l
  induction l with
  | nil => intro r h; simp [matchWsNlWsNl] at h
  | cons c rest ih =>
    intro r h
    simp only [matchWsNlWsNl] at h
    split at h
    · split at h
      · rename_i r2 heq
        cases h
        exact Nat.lt_trans (ih heq) (by simp)
      · split at h
        · exact Nat.lt_trans (matchWsNl_lt h) (by simp)
        · cases h
    · cases h

theorem matchTripleNl_lt : ∀ {l r : List Char},
    matchTripleNl l = some r → r.length < l.length := by
  intro l r h
  cases l with
  | nil => simp [matchTripleNl] at h
  | cons c rest =>
    simp only [matchTripleNl] at h
    split at h
    · exact Nat.lt_trans (matchWsNlWsNl_lt h) (by simp)
    · cases h

/-- Embeds `re.sub` of the triple-blank-line pattern: scan left to right, replacing each
(non-overlapping) match with two newlines. -/
def subTripleNl (l : List Char) : List Char :=
  match l with
  | [] => []
  | c :: rest =>
    match h : matchTripleNl (c :: rest) with
    | some rem => '\n' :: '\n' :: subTripleNl rem
    | none => c :: subTripleNl rest
termination_by l.length
decreasing_by
  · exact matchTripleNl_lt h
  · simp

/-- Python `body.replace('\r\n', '\n')`. -/
def replaceCrLf : List Char → List Char
  | [] => []
  | '\r' :: '\n' :: rest => '\n' :: replaceCrLf rest
  | c :: rest => c :: replaceCrLf rest

/-- Python `body.replace('\r', '\n')`. -/
def replaceCr : List Char → List Char
  | [] => []
  | c :: rest => (if c = '\r' then '\n' else c) :: replaceCr rest

/-- Embeds `EmailTemplateRenderer._clean_email_body`: collapse triple blank lines,
normalise line endings, strip. -/
def clean_email_body (body : String) : String :=
  let b1 := String.mk (subTripleNl body.toList)
  let b2 := String.mk (replaceCr (replaceCrLf b1.toList))
  pyStrip b2

/-- The single-quote character, `str(KeyError('x'))` being `"'x'"`. -/
def sqChar : Char := Char.ofNat 39

/-- Python `str(e)` for `e : KeyError`: the missing key wrapped in single quotes. -/
def keyErrorStr (k : String) : String :=
  String.mk (sqChar :: k.toList ++ [sqChar])

/-- Embeds `EmailTemplateRenderer.render_email`.  In the source, `template_vars` is
the merge `{**self.company_vars, **candidate.to_dict()}`; it is taken here as
the lookup function `vars`.  Subject and body are formatted in order inside a
`try`; a `KeyError e` from either is re-raised as
`ValueError(f"Missing template variable: {e}")`. -/
def render_email (t : EmailTemplate) (vars : String → Option String) :
    Except String RenderedEmail :=
  match pyFormat vars t.subject with
  | Except.error k => Except.error ("Missing template variable: " ++ keyErrorStr k)
  | Except.ok subject =>
    match pyFormat vars t.body with
    | Except.error k => Except.error ("Missing template variable: " ++ keyErrorStr k)
    | Except.ok body =>
      Except.ok { subject := subject, body := clean_email_body body }

/-- The placeholder names referenced by a format string, in order. -/
def referencedVars (t : List TItem) : List String :=
  t.filterMap (fun it => match it with | TItem.lit _ => none | TItem.field n => some n)

/-- Full substitution of a format string (placeholders without a value are
replaced by `""`; only used on templates all of whose placeholders have
values). -/
def substAll (t : List TItem) (vars : String → Option String) : String :=
  (t.map (fun it => match it with | TItem.lit s => s | TItem.field n => (vars n).getD "")).foldr
    (fun a b => a ++ b) ""

/-- The first referenced placeholder (subject first, then body) that has no
value, if any — the key of the `KeyError` that `render_email` turns into a
`ValueError`. -/
def firstMissingVar (t : EmailTemplate) (vars : String → Option String) : Option String :=
  (referencedVars t.subject ++ referencedVars t.body).find? (fun n => (vars n).isNone)

/-! ## `EnhancedEmailSender.send_bulk_emails_to_job_candidates`
(`enhanced_email_system.py`, lines 96-172) -/

/-- An entry of the `sent_to` / `failed_to` result lists (the source appends
dictionaries; absent keys are `none`). -/
structure EmailLogEntry where
  name : String
  email : Option String
  reason : Option String
deriving DecidableEq, Repr

/-- The `results` dictionary of `send_bulk_emails_to_job_candidates`. -/
structure BulkResults where
  total_candidates : Nat
  emails_sent : Nat
  emails_failed : Nat
  sent_to : List EmailLogEntry
  failed_to : List EmailLogEntry
  job_title : String
deriving DecidableEq, Repr

/-- The missing-email test of the bulk loop:
`not candidate_email or candidate_email.lower() in ['', 'not available', 'n/a']`
(applied to the already-stripped email). -/
def bad_email_marker (candidate_email : String) : Bool :=
  candidate_email.isEmpty || ["", "not available", "n/a"].contains (pyLower candidate_email)

/-- One iteration of the bulk-email loop for one shortlist entry.  The
shortlist entries are match dictionaries; only their `candidate` sub-dictionary
(`full_name`, `email`) is read, so the entry is embedded as the `Candidate`
record.  `sendOk name email` is an oracle for the outcome of the blocking
`send_manual_email` SMTP call. -/
def send_bulk_step (sendOk : String → String → Bool) (selected : Option (List String))
    (r : BulkResults) (cm : Candidate) : BulkResults :=
  let candidate_name := cm.full_name
  let candidate_email := pyStrip cm.email
  let skipSel : Bool :=
    match selected with
    | some sel => !sel.isEmpty && !(sel.contains candidate_name)
    | none => false
  if skipSel then r
  else
    let r1 := { r with total_candidates := r.total_candidates + 1 }
    if bad_email_marker candidate_email then
      { r1 with
        emails_failed := r1.emails_failed + 1
        failed_to := r1.failed_to ++
          [{ name := candidate_name, email := none, reason := some "No email address" }] }
    else if sendOk candidate_name candidate_email then
      { r1 with
        emails_sent := r1.emails_sent + 1
        sent_to := r1.sent_to ++
          [{ name := candidate_name, email := some candidate_email, reason := none }] }
    else
      { r1 with
        emails_failed := r1.emails_failed + 1
        failed_to := r1.failed_to ++
          [{ name := candidate_name, email := some candidate_email, reason := some "SMTP error" }] }

/-- The zero-initialised `results` dictionary. -/
def init_bulk_results (job_title : String) : BulkResults :=
  { total_candidates := 0, emails_sent := 0, emails_failed := 0,
    sent_to := [], failed_to := [], job_title := job_title }

/-- Embeds `EnhancedEmailSender.send_bulk_emails_to_job_candidates`: `none` models
the `{'error': ...}` return for an unknown job title; otherwise the loop over
the job's shortlist. -/
def send_bulk_emails_to_job_candidates (sendOk : String → String → Bool)
    (shortlists : List (String × List Candidate)) (job_title : String)
    (selected : Option (List String)) : Option BulkResults :=
  match List.lookup job_title shortlists with
  | none => none
  | some candidates =>
    some (candidates.foldl (send_bulk_step sendOk selected) (init_bulk_results job_title))

/-! ## Helper lemmas -/

theorem pyMin_le_right (a b : ℚ) : pyMin a b ≤ b := by
  unfold pyMin
  split
  · assumption
  · exact le_refl b

theorem pyMin_nonneg {a b : ℚ} (ha : 0 ≤ a) (hb : 0 ≤ b) : 0 ≤ pyMin a b := by
  unfold pyMin
  split <;> assumption

theorem pyMin_eq_left {a b : ℚ} (h : a ≤ b) : pyMin a b = a := by
  unfold pyMin
  exact if_pos h

theorem setInterLen_le_setUnionLen (a b : List String) :
    setInterLen a b ≤ setUnionLen a b := by
  unfold setInterLen setUnionLen
  calc (a.filter fun x => decide (x ∈ b)).length
      ≤ a.length := List.length_filter_le _ _
    _ ≤ a.length + (b.filter fun x => decide (x ∉ a)).length := Nat.le_add_right _ _
    _ = (a ++ b.filter fun x => decide (x ∉ a)).length := (List.length_append _ _).symm

theorem calculate_title_similarity_nonneg (a b : String) :
    0 ≤ calculate_title_similarity a b := by
  unfold calculate_title_similarity
  dsimp only
  split
  · exact le_refl 0
  · split
    · positivity
    · exact le_refl 0

theorem calculate_title_similarity_le_one (a b : String) :
    calculate_title_similarity a b ≤ 1 := by
  unfold calculate_title_similarity
  dsimp only
  split
  · norm_num
  · split
    · rename_i hu
      rw [div_le_one (by exact_mod_cast hu)]
      exact_mod_cast setInterLen_le_setUnionLen _ _
    · norm_num

theorem matchSkillFold_fst_nonneg (req : List String) (profile : String) :
    ∀ (skills : List String) (a : ℚ) (l : List String), 0 ≤ a →
      0 ≤ (skills.foldl (matchSkillStep req profile) (a, l)).1 := by
  intro skills
  induction skills with
  | nil => intro a l ha; simpa using ha
  | cons s rest ih =>
    intro a l ha
    rw [List.foldl_cons]
    unfold matchSkillStep
    split
    · apply ih
      have hw : (0 : ℚ) ≤ if s ∈ req then (1 : ℚ) else 1/2 := by
        split <;> norm_num
      exact add_nonneg ha hw
    · exact ih a l ha

theorem matchSkillFold_snd (req : List String) (profile : String) :
    ∀ (skills : List String) (a : ℚ) (l : List String),
      (skills.foldl (matchSkillStep req profile) (a, l)).2 =
        l ++ skills.filter (fun s => strIn (pyLower s) profile) := by
  intro skills
  induction skills with
  | nil => intro a l; simp
  | cons s rest ih =>
    intro a l
    rw [List.foldl_cons, List.filter_cons]
    simp only [matchSkillStep]
    by_cases hs : strIn (pyLower s) profile = true
    · rw [if_pos hs, if_pos hs, ih]
      simp
    · rw [if_neg hs, if_neg hs, ih]

/-- The skill-free part of the score of `calculate_match_score` is
non-negative. -/
theorem calculate_match_score_nonneg (c : Candidate) (job_skills : List String)
    (job_title : String) : 0 ≤ calculate_match_score c job_skills job_title := by
  unfold calculate_match_score
  apply pyMin_nonneg _ zero_le_one
  apply add_nonneg
  · split
    · exact le_refl 0
    · positivity
  · exact mul_nonneg (calculate_title_similarity_nonneg _ _) (by norm_num)

theorem calculate_match_score_le_one (c : Candidate) (job_skills : List String)
    (job_title : String) : calculate_match_score c job_skills job_title ≤ 1 := by
  unfold calculate_match_score
  exact pyMin_le_right _ _

theorem match_candidate_to_job_score_nonneg (c : Candidate) (j : JobDescription) :
    0 ≤ (match_candidate_to_job c j).score := by
  unfold match_candidate_to_job
  dsimp only
  apply pyMin_nonneg _ zero_le_one
  have hfold := matchSkillFold_fst_nonneg j.required_skills (candidate_profile_text c)
    (j.required_skills ++ j.preferred_skills) 0 [] (le_refl 0)
  have hnorm : (0 : ℚ) ≤
      (if 0 < ((j.required_skills.length : ℚ) + (j.preferred_skills.length : ℚ) * (1/2)) then
        ((j.required_skills ++ j.preferred_skills).foldl
          (matchSkillStep j.required_skills (candidate_profile_text c)) (0, [])).1 /
          ((j.required_skills.length : ℚ) + (j.preferred_skills.length : ℚ) * (1/2))
      else 0) := by
    split
    · rename_i hpos
      exact div_nonneg hfold (le_of_lt hpos)
    · exact le_refl 0
  split
  · exact add_nonneg hnorm (by norm_num)
  · exact hnorm

theorem match_candidate_to_job_score_le_one (c : Candidate) (j : JobDescription) :
    (match_candidate_to_job c j).score ≤ 1 := by
  unfold match_candidate_to_job
  dsimp only
  exact pyMin_le_right _ _

/-! ## Claims -/

/-- C1: for every candidate and every job, both scoring implementations
(`CandidateShortlister.calculate_match_score` and
`CandidateMatcher.match_candidate_to_job`) return a score `s` with
`0 ≤ s ≤ 1`. -/
theorem score_in_unit_interval :
    ∀ (c : Candidate) (job_skills : List String) (job_title : String) (j : JobDescription),
      (0 ≤ calculate_match_score c job_skills job_title ∧
        calculate_match_score c job_skills job_title ≤ 1) ∧
      (0 ≤ (match_candidate_to_job c j).score ∧ (match_candidate_to_job c j).score ≤ 1) :=
  fun c js jt j =>
    ⟨⟨calculate_match_score_nonneg c js jt, calculate_match_score_le_one c js jt⟩,
     ⟨match_candidate_to_job_score_nonneg c j, match_candidate_to_job_score_le_one c j⟩⟩

/-- C2: the matched-skills lists returned by `match_candidate_to_job` and
`get_matched_skills` only contain skills drawn from the job's declared
skill list (`required_skills ++ preferred_skills`, resp. `job_skills`). -/
theorem matched_skills_subset :
    (∀ (c : Candidate) (j : JobDescription),
        (match_candidate_to_job c j).matched_skills ⊆
          j.required_skills ++ j.preferred_skills) ∧
    (∀ (c : Candidate) (job_skills : List String),
        get_matched_skills c job_skills ⊆ job_skills) := by
  constructor
  · intro c j
    unfold match_candidate_to_job
    dsimp only
    rw [matchSkillFold_snd, List.nil_append]
    exact (List.filter_sublist _).subset
  · intro c job_skills
    unfold get_matched_skills
    exact (List.filter_sublist _).subset

/-- C2 witness: a concrete matched skill is drawn from the job's declared
skill list. -/
theorem matched_skills_subset_witness :
    "python" ∈
      ({ title := "Python Developer", company := "", description := "",
         required_skills := ["python"], preferred_skills := ["aws"] } :
        JobDescription).required_skills ++
      ({ title := "Python Developer", company := "", description := "",
         required_skills := ["python"], preferred_skills := ["aws"] } :
        JobDescription).preferred_skills :=
  matched_skills_subset.1
    { first_name := "", last_name := "", full_name := "", linkedin_url := "",
      email := "", company := "Acme", position := "Python Developer", connected_on := "" }
    { title := "Python Developer", company := "", description := "",
      required_skills := ["python"], preferred_skills := ["aws"] }
    (by decide)

/-- C3: for the candidate with position "Senior Python Developer" at company
"Acme" against job skills ["Python","AWS"] and job title "Python Developer",
`calculate_match_score` returns `0.5·0.7 + (2/3)·0.3 = 0.55`: skill overlap
1/2 weighted 0.7, plus title Jaccard similarity 2/3 weighted 0.3. -/
theorem example_score_senior_python_dev :
    calculate_match_score
        { first_name := "", last_name := "", full_name := "", linkedin_url := "",
          email := "", company := "Acme", position := "Senior Python Developer",
          connected_on := "" }
        ["Python", "AWS"] "Python Developer" = (1/2) * (7/10) + (2/3) * (3/10) ∧
    calculate_title_similarity "Senior Python Developer" "Python Developer" = 2/3 ∧
    ((1 : ℚ)/2) * (7/10) + ((2 : ℚ)/3) * (3/10) = 11/20 := by
  refine ⟨?_, ?_, by norm_num⟩ <;> with_unfolding_all decide

/-- With both skill lists empty, `max_score = 0`, the guard takes the `else 0`
branch, and only the flat title bonus remains. -/
theorem match_score_empty_lists (c : Candidate) (j : JobDescription)
    (h1 : j.required_skills = []) (h2 : j.preferred_skills = []) :
    (match_candidate_to_job c j).score =
      (if check_title_similarity c.position j.title then (1/5 : ℚ) else 0) := by
  unfold match_candidate_to_job
  dsimp only
  rw [h1, h2]
  simp only [List.append_nil, List.foldl_nil, List.length_nil, Nat.cast_zero]
  norm_num [pyMin]
  split <;> norm_num

/-- Field `is_match` is the threshold test on the returned score. -/
theorem match_is_match_eq (c : Candidate) (j : JobDescription) :
    (match_candidate_to_job c j).is_match =
      decide (match_threshold ≤ (match_candidate_to_job c j).score) := rfl

/-- C4: with an empty job skill list the skill term contributes 0 and the
guarded division is skipped: `calculate_match_score` degrades to the weighted
title similarity alone, and `match_candidate_to_job` (empty required and
preferred lists) to the flat title bonus; both are total functions, so no
exception arises. -/
theorem empty_skills_degrade_gracefully :
    ∀ (c : Candidate) (job_title : String) (j : JobDescription),
      calculate_match_score c [] job_title =
        calculate_title_similarity c.position job_title * (3/10) ∧
      (j.required_skills = [] → j.preferred_skills = [] →
        (match_candidate_to_job c j).score =
          (if check_title_similarity c.position j.title then (1/5 : ℚ) else 0)) := by
  intro c jt j
  constructor
  · unfold calculate_match_score
    dsimp only
    rw [if_pos (by rfl : ([] : List String).isEmpty = true), zero_add]
    exact pyMin_eq_left
      (mul_le_one₀ (calculate_title_similarity_le_one _ _) (by norm_num) (by norm_num))
  · intro h1 h2
    exact match_score_empty_lists c j h1 h2

/-- C4 witness: a concrete empty-skills job scores exactly the title bonus. -/
theorem empty_skills_degrade_gracefully_witness :
    (match_candidate_to_job
        { first_name := "", last_name := "", full_name := "", linkedin_url := "",
          email := "", company := "Acme", position := "Python Developer",
          connected_on := "" }
        { title := "Python Developer", company := "", description := "",
          required_skills := [], preferred_skills := [] }).score = 1/5 := by
  have h := (empty_skills_degrade_gracefully
    { first_name := "", last_name := "", full_name := "", linkedin_url := "",
      email := "", company := "Acme", position := "Python Developer",
      connected_on := "" }
    "Python Developer"
    { title := "Python Developer", company := "", description := "",
      required_skills := [], preferred_skills := [] }).2 rfl rfl
  rw [h]
  with_unfolding_all decide

/-- C10 (implicit): with both skill lists empty the score is at most the 0.2
title bonus, below the 0.3 threshold, so `is_match` is always false and
`get_matches_for_job` returns the empty list. -/
theorem empty_skill_job_yields_no_matches :
    ∀ (c : Candidate) (j : JobDescription) (cands : List Candidate) (top_n : Nat),
      j.required_skills = [] → j.preferred_skills = [] →
      (match_candidate_to_job c j).score ≤ 1/5 ∧
      (match_candidate_to_job c j).is_match = false ∧
      get_matches_for_job cands j top_n = [] := by
  intro c j cands top_n h1 h2
  have him : ∀ c2 : Candidate, (match_candidate_to_job c2 j).is_match = false := by
    intro c2
    rw [match_is_match_eq]
    apply decide_eq_false
    rw [match_score_empty_lists c2 j h1 h2]
    unfold match_threshold
    split <;> norm_num
  refine ⟨?_, him c, ?_⟩
  · rw [match_score_empty_lists c j h1 h2]
    split <;> norm_num
  · unfold get_matches_for_job
    dsimp only
    have hnil : (cands.map fun c2 => match_candidate_to_job c2 j).filter
        (fun m => m.is_match) = [] := by
      rw [List.filter_eq_nil_iff]
      intro m hm
      obtain ⟨c2, _, rfl⟩ := List.mem_map.mp hm
      simp [him c2]
    rw [hnil]
    simp [sortByScoreDesc]

/-- C10 witness: a concrete skill-less job yields the empty shortlist. -/
theorem empty_skill_job_yields_no_matches_witness :
    get_matches_for_job
      [{ first_name := "", last_name := "", full_name := "", linkedin_url := "",
         email := "", company := "Acme", position := "Python Developer",
         connected_on := "" }]
      { title := "Python Developer", company := "", description := "",
        required_skills := [], preferred_skills := [] }
      10 = [] :=
  (empty_skill_job_yields_no_matches
    { first_name := "", last_name := "", full_name := "", linkedin_url := "",
      email := "", company := "Acme", position := "Python Developer",
      connected_on := "" }
    { title := "Python Developer", company := "", description := "",
      required_skills := [], preferred_skills := [] }
    [{ first_name := "", last_name := "", full_name := "", linkedin_url := "",
       email := "", company := "Acme", position := "Python Developer",
       connected_on := "" }]
    10 rfl rfl).2.2

/-! ### Properties of the descending sort -/

theorem mem_insertByScoreDesc {α : Type} {f : α → ℚ} {m x : α} {l : List α} :
    x ∈ insertByScoreDesc f m l ↔ x = m ∨ x ∈ l := by
  induction l with
  | nil => simp [insertByScoreDesc]
  | cons y ys ih =>
    unfold insertByScoreDesc
    split
    · simp [List.mem_cons]
    · simp only [List.mem_cons, ih]
      tauto

theorem pairwise_insertByScoreDesc {α : Type} {f : α → ℚ} {m : α} {l : List α}
    (h : l.Pairwise (fun a b => f b ≤ f a)) :
    (insertByScoreDesc f m l).Pairwise (fun a b => f b ≤ f a) := by
  induction l with
  | nil => simp [insertByScoreDesc]
  | cons y ys ih =>
    rw [List.pairwise_cons] at h
    obtain ⟨hy, hys⟩ := h
    unfold insertByScoreDesc
    split
    · rename_i hlt
      rw [List.pairwise_cons]
      refine ⟨?_, List.pairwise_cons.mpr ⟨hy, hys⟩⟩
      intro b hb
      rcases List.mem_cons.mp hb with rfl | hb
      · exact le_of_lt hlt
      · exact le_trans (hy b hb) (le_of_lt hlt)
    · rename_i hge
      rw [List.pairwise_cons]
      refine ⟨?_, ih hys⟩
      intro b hb
      rcases mem_insertByScoreDesc.mp hb with rfl | hb
      · exact le_of_not_lt hge
      · exact hy b hb

theorem length_insertByScoreDesc {α : Type} (f : α → ℚ) (m : α) (l : List α) :
    (insertByScoreDesc f m l).length = l.length + 1 := by
  induction l with
  | nil => rfl
  | cons y ys ih =>
    unfold insertByScoreDesc
    split
    · simp
    · simp [ih]

theorem mem_sortByScoreDesc {α : Type} {f : α → ℚ} {x : α} {l : List α} :
    x ∈ sortByScoreDesc f l ↔ x ∈ l := by
  induction l with
  | nil => simp [sortByScoreDesc]
  | cons y ys ih =>
    unfold sortByScoreDesc at ih ⊢
    rw [List.foldr_cons, mem_insertByScoreDesc, ih, List.mem_cons]

theorem pairwise_sortByScoreDesc {α : Type} (f : α → ℚ) (l : List α) :
    (sortByScoreDesc f l).Pairwise (fun a b => f b ≤ f a) := by
  induction l with
  | nil => simp [sortByScoreDesc]
  | cons y ys ih =>
    unfold sortByScoreDesc at ih ⊢
    rw [List.foldr_cons]
    exact pairwise_insertByScoreDesc ih

theorem length_sortByScoreDesc {α : Type} (f : α → ℚ) (l : List α) :
    (sortByScoreDesc f l).length = l.length := by
  induction l with
  | nil => rfl
  | cons y ys ih =>
    unfold sortByScoreDesc at ih ⊢
    rw [List.foldr_cons, length_insertByScoreDesc, ih, List.length_cons]

/-- C5: both ranking operations return only candidates meeting their
threshold (`is_match`, i.e. score ≥ 0.3, resp. `score ≥ min_score`), sorted
in descending order of score, and truncated to the configured maximum
(`top_n`, resp. `max_candidates`). -/
theorem ranking_contract :
    (∀ (cands : List Candidate) (j : JobDescription) (top_n : Nat),
       (∀ m ∈ get_matches_for_job cands j top_n,
          m.is_match = true ∧ match_threshold ≤ m.score) ∧
       (get_matches_for_job cands j top_n).Pairwise (fun a b => b.score ≤ a.score) ∧
       (get_matches_for_job cands j top_n).length ≤ top_n) ∧
    (∀ (cands : List Candidate) (job_skills : List String) (job_title : String)
       (min_score : ℚ) (max_candidates : Nat),
       (∀ m ∈ find_matches_for_job cands job_skills job_title min_score max_candidates,
          min_score ≤ m.score) ∧
       (find_matches_for_job cands job_skills job_title min_score max_candidates).Pairwise
         (fun a b => b.score ≤ a.score) ∧
       (find_matches_for_job cands job_skills job_title min_score
         max_candidates).length ≤ max_candidates) := by
  constructor
  · intro cands j top_n
    refine ⟨?_, ?_, ?_⟩
    · intro m hm
      have hsorted : m ∈ sortByScoreDesc (fun m => m.score)
          ((cands.map fun c => match_candidate_to_job c j).filter fun m => m.is_match) :=
        List.take_subset _ _ hm
      have hfil := mem_sortByScoreDesc.mp hsorted
      have hmatch : m.is_match = true := by
        simpa using (List.mem_filter.mp hfil).2
      refine ⟨hmatch, ?_⟩
      obtain ⟨c, _, rfl⟩ := List.mem_map.mp (List.mem_filter.mp hfil).1
      rw [match_is_match_eq] at hmatch
      exact of_decide_eq_true hmatch
    · exact List.Pairwise.sublist (List.take_sublist _ _)
        (pairwise_sortByScoreDesc _ _)
    · exact List.length_take_le _ _
  · intro cands job_skills job_title min_score max_candidates
    refine ⟨?_, ?_, ?_⟩
    · intro m hm
      have hsorted := List.take_subset _ _ hm
      have hfil := mem_sortByScoreDesc.mp hsorted
      obtain ⟨c, _, hc⟩ := List.mem_filterMap.mp hfil
      by_cases hsc : min_score ≤ calculate_match_score c job_skills job_title
      · rw [if_pos hsc] at hc
        cases hc
        exact hsc
      · rw [if_neg hsc] at hc
        cases hc
    · exact List.Pairwise.sublist (List.take_sublist _ _)
        (pairwise_sortByScoreDesc _ _)
    · exact List.length_take_le _ _

/-- C5 witness: on a concrete one-candidate list the returned match meets the
threshold. -/
theorem ranking_contract_witness :
    match_threshold ≤
      (match_candidate_to_job
        { first_name := "", last_name := "", full_name := "", linkedin_url := "",
          email := "", company := "Acme", position := "Python Developer",
          connected_on := "" }
        { title := "Python Developer", company := "", description := "",
          required_skills := ["python"], preferred_skills := [] }).score :=
  ((ranking_contract.1
      [{ first_name := "", last_name := "", full_name := "", linkedin_url := "",
         email := "", company := "Acme", position := "Python Developer",
         connected_on := "" }]
      { title := "Python Developer", company := "", description := "",
        required_skills := ["python"], preferred_skills := [] }
      10).1
    (match_candidate_to_job
      { first_name := "", last_name := "", full_name := "", linkedin_url := "",
        email := "", company := "Acme", position := "Python Developer",
        connected_on := "" }
      { title := "Python Developer", company := "", description := "",
        required_skills := ["python"], preferred_skills := [] })
    (by with_unfolding_all decide)).2

/-! ### Substring lemmas for the skill-extraction claims -/

theorem chStartsWith_iff {p t : List Char} :
    chStartsWith p t = true ↔ ∃ u, t = p ++ u := by
  induction p generalizing t with
  | nil =>
    constructor
    · intro _
      exact ⟨t, rfl⟩
    · intro _
      rfl
  | cons a ps ih =>
    cases t with
    | nil =>
      constructor
      · intro h; cases h
      · rintro ⟨u, hu⟩; cases hu
    | cons b ts =>
      rw [show chStartsWith (a :: ps) (b :: ts) = (a == b && chStartsWith ps ts) from rfl,
        Bool.and_eq_true, beq_iff_eq, ih]
      constructor
      · rintro ⟨rfl, u, rfl⟩
        exact ⟨u, rfl⟩
      · rintro ⟨u, hu⟩
        rw [List.cons_append] at hu
        injection hu with h1 h2
        exact ⟨h1.symm, u, h2⟩

theorem chContains_iff {p t : List Char} :
    chContains p t = true ↔ ∃ x y, t = x ++ p ++ y := by
  induction t with
  | nil =>
    simp only [chContains, List.isEmpty_iff]
    constructor
    · rintro rfl
      exact ⟨[], [], rfl⟩
    · rintro ⟨x, y, hxy⟩
      rcases List.append_eq_nil.mp hxy.symm with ⟨hxp, hy⟩
      exact (List.append_eq_nil.mp hxp).2
  | cons c ts ih =>
    rw [show chContains p (c :: ts) = (chStartsWith p (c :: ts) || chContains p ts) from rfl,
      Bool.or_eq_true, chStartsWith_iff, ih]
    constructor
    · rintro (⟨u, hu⟩ | ⟨x, y, hxy⟩)
      · exact ⟨[], u, by simpa using hu⟩
      · exact ⟨c :: x, y, by simp [hxy]⟩
    · rintro ⟨x, y, hxy⟩
      cases x with
      | nil => exact Or.inl ⟨y, by simpa using hxy⟩
      | cons x0 xs =>
        simp only [List.cons_append, List.append_assoc] at hxy
        injection hxy with h1 h2
        exact Or.inr ⟨xs, y, by simpa [List.append_assoc] using h2⟩

/-- Substring containment is preserved by embedding the text in a wider one. -/
theorem chContains_of_within {p t x y : List Char} (h : chContains p t = true) :
    chContains p (x ++ t ++ y) = true := by
  obtain ⟨u, v, rfl⟩ := chContains_iff.mp h
  exact chContains_iff.mpr ⟨x ++ u, v ++ y, by simp⟩

/-- Any `take`-of-`drop`-of-`drop` slice sits inside the original list. -/
theorem take_drop_drop_within (t : List Char) (a b s : Nat) :
    ∃ x y, t = x ++ ((t.drop a).drop b).take s ++ y := by
  refine ⟨t.take a ++ (t.drop a).take b, ((t.drop a).drop b).drop s, ?_⟩
  conv_lhs => rw [← List.take_append_drop a t]
  rw [List.append_assoc, List.append_assoc]
  congr 1
  conv_lhs => rw [← List.take_append_drop b (t.drop a)]
  congr 1
  exact (List.take_append_drop s ((t.drop a).drop b)).symm

theorem captureAfterColon_within {stops : List (List Char)} {desc txt : List Char}
    {n : Nat} (h : captureAfterColon stops (desc.drop n) = some txt) :
    ∃ x y, desc = x ++ txt ++ y := by
  unfold captureAfterColon at h
  dsimp only at h
  split at h
  · cases h
  · cases h
    exact take_drop_drop_within desc _ _ _

theorem requiredSectionText_within {desc txt : List Char}
    (h : requiredSectionText desc = some txt) : ∃ x y, desc = x ++ txt ++ y := by
  unfold requiredSectionText at h
  split at h
  · cases h
  · exact captureAfterColon_within h

theorem preferredSectionText_within {desc txt : List Char}
    (h : preferredSectionText desc = some txt) : ∃ x y, desc = x ++ txt ++ y := by
  unfold preferredSectionText at h
  split at h
  · cases h
  · exact captureAfterColon_within h

/-- Everything `_extract_skills` reports is a vocabulary term occurring as a
substring of the lowercased description (the sections being slices of it). -/
theorem extract_skills_sound {description skill : String}
    (h : skill ∈ (extract_skills description).1 ∨ skill ∈ (extract_skills description).2) :
    skill ∈ technical_skills ∧
      chContains skill.toList ((pyLower description).toList) = true := by
  have hfull : skill ∈ technical_skills.filter
      (fun s => chContains s.toList ((pyLower description).toList)) →
      skill ∈ technical_skills ∧
        chContains skill.toList ((pyLower description).toList) = true :=
    fun hm => ⟨(List.mem_filter.mp hm).1, (List.mem_filter.mp hm).2⟩
  have hreqc : ∀ txt, requiredSectionText ((pyLower description).toList) = some txt →
      skill ∈ technical_skills.filter (fun s => chContains s.toList txt) →
      skill ∈ technical_skills ∧
        chContains skill.toList ((pyLower description).toList) = true := by
    intro txt heq hm
    refine ⟨(List.mem_filter.mp hm).1, ?_⟩
    obtain ⟨x, y, hxy⟩ := requiredSectionText_within heq
    rw [hxy]
    exact chContains_of_within (List.mem_filter.mp hm).2
  have hprefc : ∀ txt (req : List String),
      preferredSectionText ((pyLower description).toList) = some txt →
      skill ∈ technical_skills.filter
        (fun s => chContains s.toList txt && !(req.contains s)) →
      skill ∈ technical_skills ∧
        chContains skill.toList ((pyLower description).toList) = true := by
    intro txt req heq hm
    refine ⟨(List.mem_filter.mp hm).1, ?_⟩
    obtain ⟨x, y, hxy⟩ := preferredSectionText_within heq
    rw [hxy]
    have hand := (List.mem_filter.mp hm).2
    rw [Bool.and_eq_true] at hand
    exact chContains_of_within hand.1
  unfold extract_skills at h
  dsimp only at h
  cases hreq : requiredSectionText ((pyLower description).toList) with
  | none =>
    cases hpref : preferredSectionText ((pyLower description).toList) with
    | none =>
      rw [hreq, hpref] at h
      dsimp only at h
      rcases h with h | h
      · exact hfull h
      · cases h
    | some ptxt =>
      rw [hreq, hpref] at h
      dsimp only at h
      split at h <;> rcases h with h | h
      · exact hfull h
      · cases h
      · cases h
      · exact hprefc ptxt [] hpref h
  | some rtxt =>
    cases hpref : preferredSectionText ((pyLower description).toList) with
    | none =>
      rw [hreq, hpref] at h
      dsimp only at h
      split at h <;> rcases h with h | h
      · exact hfull h
      · cases h
      · exact hreqc rtxt hreq h
      · cases h
    | some ptxt =>
      rw [hreq, hpref] at h
      dsimp only at h
      split at h <;> rcases h with h | h
      · exact hfull h
      · cases h
      · exact hreqc rtxt hreq h
      · exact hprefc ptxt _ hpref h

/-- C6 counterexample: the vocabulary term "ai" occurs in the text "retail"
only as a proper substring of a longer word, yet `_extract_skills` reports it
— the claimed whole-word discipline does not hold. -/
theorem whole_word_matching_counterexample :
    ¬ (("ai" ∈ (extract_skills "retail").1 ∨ "ai" ∈ (extract_skills "retail").2) ↔
        specWholeWordMatch "ai" "retail" = true) := by
  decide

/-- C6 amended: skill reporting is plain case-insensitive SUBSTRING matching,
not whole-word matching: `get_matched_skills` returns exactly the job skills
occurring as substrings of the candidate profile text; `_extract_skills`
reports only vocabulary terms occurring as substrings of the lowercased
description, and exactly the terms occurring in it when no required/preferred
section is found. -/
theorem substring_skill_matching :
    (∀ (c : Candidate) (job_skills : List String) (skill : String),
       skill ∈ get_matched_skills c job_skills ↔
         skill ∈ job_skills ∧ strIn (pyLower skill) (candidate_profile_text c) = true) ∧
    (∀ (description : String) (skill : String),
       (skill ∈ (extract_skills description).1 ∨ skill ∈ (extract_skills description).2) →
         skill ∈ technical_skills ∧
         chContains skill.toList ((pyLower description).toList) = true) ∧
    (∀ description : String,
       requiredSectionText ((pyLower description).toList) = none →
       preferredSectionText ((pyLower description).toList) = none →
       extract_skills description =
         (technical_skills.filter (fun s => chContains s.toList ((pyLower description).toList)),
          [])) := by
  refine ⟨?_, ?_, ?_⟩
  · intro c job_skills skill
    unfold get_matched_skills
    dsimp only
    exact List.mem_filter
  · intro description skill h
    exact extract_skills_sound h
  · intro description hr hp
    unfold extract_skills
    dsimp only
    rw [hr, hp]
    rfl

/-- C6 witness: the substring characterisation applied to a concrete
candidate and skill list. -/
theorem substring_skill_matching_witness :
    "ai" ∈ get_matched_skills
      { first_name := "", last_name := "", full_name := "", linkedin_url := "",
        email := "", company := "", position := "Retail", connected_on := "" }
      ["ai"] :=
  (substring_skill_matching.1
    { first_name := "", last_name := "", full_name := "", linkedin_url := "",
      email := "", company := "", position := "Retail", connected_on := "" }
    ["ai"] "ai").mpr ⟨by decide, by decide⟩

/-! ### Lemmas about `sync_csv_to_db` -/

theorem sync_row_mem {db : CandDB} {row : CsvRow} {r : DBCandidate}
    (h : r ∈ db.rows) : r ∈ (sync_row db row).rows := by
  unfold sync_row
  dsimp only
  split
  · exact h
  · exact List.mem_append_left _ h

theorem sync_fold_mem {rows : List CsvRow} : ∀ {db : CandDB} {r : DBCandidate},
    r ∈ db.rows → r ∈ (sync_csv_to_db db rows).rows := by
  induction rows with
  | nil =>
    intro db r h
    exact h
  | cons x xs ih =>
    intro db r h
    unfold sync_csv_to_db
    rw [List.foldl_cons]
    exact ih (sync_row_mem h)

theorem sync_row_covers {db : CandDB} {row : CsvRow}
    (he : (pyStrip row.url).isEmpty = false) :
    ∃ r ∈ (sync_row db row).rows, r.linkedin_url = pyStrip row.url := by
  unfold sync_row
  dsimp only
  split
  · rename_i hcond
    rw [Bool.or_eq_true] at hcond
    rcases hcond with hc | hc
    · rw [he] at hc
      cases hc
    · obtain ⟨r, hr, hbeq⟩ := List.any_eq_true.mp hc
      exact ⟨r, hr, by simpa using hbeq⟩
  · exact ⟨_, List.mem_append_right _ (List.mem_singleton.mpr rfl), rfl⟩

theorem sync_covers {rows : List CsvRow} : ∀ {db : CandDB} {row : CsvRow},
    row ∈ rows →
    (pyStrip row.url).isEmpty = true ∨
      ∃ r ∈ (sync_csv_to_db db rows).rows, r.linkedin_url = pyStrip row.url := by
  induction rows with
  | nil =>
    intro db row h
    cases h
  | cons x xs ih =>
    intro db row h
    rcases List.mem_cons.mp h with rfl | hmem
    · cases he : (pyStrip row.url).isEmpty with
      | true => exact Or.inl rfl
      | false =>
        right
        obtain ⟨r, hr, hurl⟩ := @sync_row_covers db row he
        unfold sync_csv_to_db
        rw [List.foldl_cons]
        exact ⟨r, sync_fold_mem hr, hurl⟩
    · unfold sync_csv_to_db
      rw [List.foldl_cons]
      exact ih hmem

theorem sync_row_noop {db : CandDB} {row : CsvRow}
    (h : (pyStrip row.url).isEmpty = true ∨
      ∃ r ∈ db.rows, r.linkedin_url = pyStrip row.url) :
    sync_row db row = db := by
  have hcond : ((pyStrip row.url).isEmpty ||
      db.rows.any (fun r => r.linkedin_url == pyStrip row.url)) = true := by
    rw [Bool.or_eq_true]
    rcases h with h | ⟨r, hr, hurl⟩
    · exact Or.inl h
    · exact Or.inr (List.any_eq_true.mpr ⟨r, hr, by simpa using hurl⟩)
  unfold sync_row
  dsimp only
  rw [if_pos hcond]

theorem sync_foldl_noop {rows : List CsvRow} : ∀ {db : CandDB},
    (∀ row ∈ rows, sync_row db row = db) → rows.foldl sync_row db = db := by
  induction rows with
  | nil =>
    intro db _
    rfl
  | cons x xs ih =>
    intro db h
    rw [List.foldl_cons, h x (List.mem_cons_self x xs)]
    exact ih (fun row hr => h row (List.mem_cons_of_mem x hr))

/-- Concrete table for the C7 counterexample and witness: one candidate with
id 1. -/
def dupRow : DBCandidate :=
  { id := 1, first_name := "Test", last_name := "User", full_name := "Test User",
    linkedin_url := "https://linkedin.com/in/testuser", email := "",
    company := "", position := "", connected_on := "", location := "",
    skills := "", experience_summary := "" }

/-- Concrete table for the C7 counterexample and witness. -/
def dupDB : CandDB := { rows := [dupRow], nextId := 2 }

/-- A `candidate_data` input whose LinkedIn URL already exists in `dupDB` but
whose `full_name` is empty. -/
def dupInputNoName : CandidateInput :=
  { full_name := "", linkedin_url := "https://linkedin.com/in/testuser" }

/-- A valid `candidate_data` input whose LinkedIn URL already exists in
`dupDB`. -/
def dupInputValid : CandidateInput :=
  { full_name := "Test User", linkedin_url := "https://linkedin.com/in/testuser" }

/-- C7 counterexample: calling `add_candidate` with a LinkedIn URL that
already exists but an empty `full_name` fails the validation that runs before
the duplicate check, and returns `None` rather than the existing candidate's
identifier (the count is still unchanged). -/
theorem add_candidate_duplicate_counterexample :
    (∃ r ∈ dupDB.rows, r.linkedin_url = dupInputNoName.linkedin_url) ∧
    (∀ r ∈ dupDB.rows, (add_candidate dupDB dupInputNoName).1 ≠ some r.id) ∧
    (add_candidate dupDB dupInputNoName).1 = none ∧
    get_candidates_count (add_candidate dupDB dupInputNoName).2 =
      get_candidates_count dupDB := by
  decide

/-- C7 amended: for inputs passing `add_candidate`'s own validation
(non-empty stripped `full_name` and `linkedin_url`), a call whose
`linkedin_url` already exists returns the first existing row's id and leaves
the table unchanged; and syncing the same CSV rows a second time leaves the
table — in particular the candidate count — unchanged. -/
theorem add_candidate_idempotent :
    (∀ (db : CandDB) (d : CandidateInput) (r : DBCandidate),
       (pyStrip d.full_name).isEmpty = false →
       (pyStrip d.linkedin_url).isEmpty = false →
       db.rows.find? (fun x => x.linkedin_url == d.linkedin_url) = some r →
       add_candidate db d = (some r.id, db)) ∧
    (∀ (db : CandDB) (rows : List CsvRow),
       sync_csv_to_db (sync_csv_to_db db rows) rows = sync_csv_to_db db rows ∧
       get_candidates_count (sync_csv_to_db (sync_csv_to_db db rows) rows) =
         get_candidates_count (sync_csv_to_db db rows)) := by
  constructor
  · intro db d r h1 h2 hf
    unfold add_candidate
    rw [h1, h2, hf]
    rfl
  · intro db rows
    have hidem : sync_csv_to_db (sync_csv_to_db db rows) rows = sync_csv_to_db db rows := by
      have hnoop : ∀ row ∈ rows, sync_row (sync_csv_to_db db rows) row =
          sync_csv_to_db db rows := by
        intro row hrow
        exact sync_row_noop (sync_covers hrow)
      exact sync_foldl_noop hnoop
    exact ⟨hidem, by rw [hidem]⟩

/-- C7 witness: a valid duplicate-URL insert on the concrete table returns
the existing id 1 and leaves the table unchanged. -/
theorem add_candidate_idempotent_witness :
    add_candidate dupDB dupInputValid = (some 1, dupDB) :=
  add_candidate_idempotent.1 dupDB dupInputValid dupRow
    (by decide) (by decide) (by decide)

/-! ### Lemmas about template rendering -/

theorem find?_append_eq {α : Type} (p : α → Bool) (l1 l2 : List α) :
    (l1 ++ l2).find? p =
      match l1.find? p with
      | some x => some x
      | none => l2.find? p := by
  induction l1 with
  | nil => rfl
  | cons a l ih =>
    rw [List.cons_append]
    cases hpa : p a with
    | true =>
      rw [List.find?_cons_of_pos _ hpa, List.find?_cons_of_pos _ hpa]
    | false =>
      rw [List.find?_cons_of_neg _ (by simp [hpa]), List.find?_cons_of_neg _ (by simp [hpa]), ih]

/-- Lemma: `pyFormat` succeeds with the full substitution exactly when every
referenced placeholder has a value, and otherwise raises the first missing
key. -/
theorem pyFormat_eq (vars : String → Option String) :
    ∀ t : List TItem,
      pyFormat vars t =
        match (referencedVars t).find? (fun n => (vars n).isNone) with
        | some k => Except.error k
        | none => Except.ok (substAll t vars) := by
  intro t
  induction t with
  | nil => rfl
  | cons it rest ih =>
    cases it with
    | lit s =>
      have href : referencedVars (TItem.lit s :: rest) = referencedVars rest := by
        simp [referencedVars]
      have hsub : substAll (TItem.lit s :: rest) vars = s ++ substAll rest vars := by
        simp [substAll]
      show (match pyFormat vars rest with
            | Except.ok t2 => Except.ok (s ++ t2)
            | Except.error k => Except.error k) = _
      rw [ih, href, hsub]
      cases hf : (referencedVars rest).find? (fun n => (vars n).isNone) <;> rfl
    | field n =>
      have href : referencedVars (TItem.field n :: rest) = n :: referencedVars rest := by
        simp [referencedVars]
      show (match vars n with
            | none => Except.error n
            | some v =>
              match pyFormat vars rest with
              | Except.ok t2 => Except.ok (v ++ t2)
              | Except.error k => Except.error k) = _
      rw [href]
      cases hv : vars n with
      | none =>
        rw [List.find?_cons_of_pos _ (by simp [hv])]
      | some v =>
        rw [List.find?_cons_of_neg _ (by simp [hv]), ih]
        cases hf : (referencedVars rest).find? (fun n2 => (vars n2).isNone) with
        | some k => rfl
        | none =>
          show Except.ok (v ++ substAll rest vars) =
            Except.ok (substAll (TItem.field n :: rest) vars)
          simp [substAll, hv]

/-- C8: template rendering is all-or-nothing: when some placeholder
referenced by the subject or body has no value, `render_email` raises the
"Missing template variable" error carrying the first missing key and produces
no output; when every referenced placeholder has a value it returns the
subject and body with every placeholder substituted. -/
theorem render_email_all_or_nothing :
    ∀ (t : EmailTemplate) (vars : String → Option String),
      render_email t vars =
        match firstMissingVar t vars with
        | some k => Except.error ("Missing template variable: " ++ keyErrorStr k)
        | none => Except.ok { subject := substAll t.subject vars,
                              body := clean_email_body (substAll t.body vars) } := by
  intro t vars
  unfold render_email firstMissingVar
  rw [pyFormat_eq vars t.subject, pyFormat_eq vars t.body, find?_append_eq]
  cases hs : (referencedVars t.subject).find? (fun n => (vars n).isNone) with
  | some k => rfl
  | none =>
    cases hb : (referencedVars t.body).find? (fun n => (vars n).isNone) <;> rfl

/-! ### Lemmas about the bulk-email loop -/

theorem bulk_step_failed_mono (sendOk : String → String → Bool)
    (selected : Option (List String)) (r : BulkResults) (cm : Candidate)
    {e : EmailLogEntry} (h : e ∈ r.failed_to) :
    e ∈ (send_bulk_step sendOk selected r cm).failed_to := by
  unfold send_bulk_step
  dsimp only
  split
  · exact h
  · split
    · exact List.mem_append_left _ h
    · split
      · exact h
      · exact List.mem_append_left _ h

theorem bulk_fold_failed_mono (sendOk : String → String → Bool)
    (selected : Option (List String)) :
    ∀ (cs : List Candidate) (r : BulkResults) {e : EmailLogEntry},
      e ∈ r.failed_to →
      e ∈ (cs.foldl (send_bulk_step sendOk selected) r).failed_to := by
  intro cs
  induction cs with
  | nil =>
    intro r e h
    exact h
  | cons x xs ih =>
    intro r e h
    rw [List.foldl_cons]
    exact ih _ (bulk_step_failed_mono _ _ _ _ h)

theorem bulk_step_inv (sendOk : String → String → Bool)
    (selected : Option (List String)) (r : BulkResults) (cm : Candidate)
    (h1 : ∀ e ∈ r.sent_to, ∃ em, e.email = some em ∧ bad_email_marker em = false)
    (h2 : r.emails_failed = r.failed_to.length) :
    (∀ e ∈ (send_bulk_step sendOk selected r cm).sent_to,
        ∃ em, e.email = some em ∧ bad_email_marker em = false) ∧
    (send_bulk_step sendOk selected r cm).emails_failed =
      (send_bulk_step sendOk selected r cm).failed_to.length := by
  unfold send_bulk_step
  dsimp only
  split
  · exact ⟨h1, h2⟩
  · split
    · refine ⟨h1, ?_⟩
      simp [h2]
    · split
      · rename_i hbad hok
        refine ⟨?_, h2⟩
        intro e he
        rcases List.mem_append.mp he with he | he
        · exact h1 e he
        · rw [List.mem_singleton] at he
          subst he
          refine ⟨pyStrip cm.email, rfl, ?_⟩
          cases hb2 : bad_email_marker (pyStrip cm.email) with
          | false => rfl
          | true => exact absurd hb2 hbad
      · refine ⟨h1, ?_⟩
        simp [h2]

theorem bulk_fold_inv (sendOk : String → String → Bool)
    (selected : Option (List String)) :
    ∀ (cs : List Candidate) (r : BulkResults),
      (∀ e ∈ r.sent_to, ∃ em, e.email = some em ∧ bad_email_marker em = false) →
      r.emails_failed = r.failed_to.length →
      (∀ e ∈ (cs.foldl (send_bulk_step sendOk selected) r).sent_to,
          ∃ em, e.email = some em ∧ bad_email_marker em = false) ∧
      (cs.foldl (send_bulk_step sendOk selected) r).emails_failed =
        (cs.foldl (send_bulk_step sendOk selected) r).failed_to.length := by
  intro cs
  induction cs with
  | nil =>
    intro r h1 h2
    exact ⟨h1, h2⟩
  | cons x xs ih =>
    intro r h1 h2
    rw [List.foldl_cons]
    obtain ⟨h1s, h2s⟩ := bulk_step_inv sendOk selected r x h1 h2
    exact ih _ h1s h2s

theorem bulk_fold_bad_entry (sendOk : String → String → Bool)
    (selected : Option (List String)) :
    ∀ (cs : List Candidate) (r : BulkResults) (cm : Candidate),
      cm ∈ cs →
      bad_email_marker (pyStrip cm.email) = true →
      (match selected with
       | some sel => sel.isEmpty = true ∨ cm.full_name ∈ sel
       | none => True) →
      ({ name := cm.full_name, email := none,
         reason := some "No email address" } : EmailLogEntry) ∈
        (cs.foldl (send_bulk_step sendOk selected) r).failed_to := by
  intro cs
  induction cs with
  | nil =>
    intro r cm h
    cases h
  | cons x xs ih =>
    intro r cm hmem hbad hsel
    rw [List.foldl_cons]
    rcases List.mem_cons.mp hmem with rfl | hmem
    · apply bulk_fold_failed_mono
      unfold send_bulk_step
      dsimp only
      split
      · rename_i hskip
        exfalso
        revert hskip hsel
        cases selected with
        | none =>
          intro hsel hskip
          cases hskip
        | some sel =>
          intro hsel hskip
          dsimp only at hskip
          rcases hsel with hempty | hmemsel
          · rw [hempty] at hskip
            simp at hskip
          · have hc : sel.contains cm.full_name = true :=
              List.elem_eq_true_of_mem hmemsel
            rw [hc] at hskip
            simp at hskip
      · exact List.mem_append_right _ (List.mem_singleton.mpr rfl)
    · exact ih _ cm hmem hbad hsel

/-- No email-based filtering in `find_matches_for_job`: any loaded candidate
whose score meets `min_score` appears in the output (when the top-N cap does
not truncate the result). -/
theorem find_matches_complete {cands : List Candidate} {c : Candidate}
    (job_skills : List String) (job_title : String) (min_score : ℚ)
    (max_candidates : Nat) (hmem : c ∈ cands)
    (hsc : min_score ≤ calculate_match_score c job_skills job_title)
    (hlen : cands.length ≤ max_candidates) :
    ({ candidate := c, score := calculate_match_score c job_skills job_title,
       matched_skills := get_matched_skills c job_skills,
       job_title := job_title } : FMatch) ∈
      find_matches_for_job cands job_skills job_title min_score max_candidates := by
  unfold find_matches_for_job
  dsimp only
  rw [List.take_of_length_le ?hl]
  case hl =>
    rw [length_sortByScoreDesc]
    exact le_trans (List.length_filterMap_le _ _) hlen
  refine mem_sortByScoreDesc.mpr (List.mem_filterMap.mpr ⟨c, hmem, ?_⟩)
  rw [if_pos hsc]

/-- C9: a candidate with a missing email (empty, "not available" or "n/a"
after stripping, case-insensitively) is still included in the shortlist
output of `find_matches_for_job` whenever the score meets the threshold
(no email filter; stated with the top-N cap not truncating), while
`send_bulk_emails_to_job_candidates` never sends to such a candidate
(every sent entry carries a usable address), counts every failure in
`emails_failed`, and records a failure entry with reason exactly
"No email address" for every processed missing-email candidate. -/
theorem missing_email_handling :
    (∀ (cands : List Candidate) (c : Candidate) (job_skills : List String)
       (job_title : String) (min_score : ℚ) (max_candidates : Nat),
       c ∈ cands →
       bad_email_marker (pyStrip c.email) = true →
       min_score ≤ calculate_match_score c job_skills job_title →
       cands.length ≤ max_candidates →
       ({ candidate := c, score := calculate_match_score c job_skills job_title,
          matched_skills := get_matched_skills c job_skills,
          job_title := job_title } : FMatch) ∈
         find_matches_for_job cands job_skills job_title min_score max_candidates) ∧
    (∀ (sendOk : String → String → Bool) (shortlists : List (String × List Candidate))
       (job_title : String) (selected : Option (List String))
       (cs : List Candidate) (res : BulkResults),
       List.lookup job_title shortlists = some cs →
       send_bulk_emails_to_job_candidates sendOk shortlists job_title selected = some res →
       (∀ e ∈ res.sent_to, ∃ em, e.email = some em ∧ bad_email_marker em = false) ∧
       res.emails_failed = res.failed_to.length ∧
       (∀ cm ∈ cs,
          bad_email_marker (pyStrip cm.email) = true →
          (match selected with
           | some sel => sel.isEmpty = true ∨ cm.full_name ∈ sel
           | none => True) →
          ({ name := cm.full_name, email := none,
             reason := some "No email address" } : EmailLogEntry) ∈ res.failed_to)) := by
  constructor
  · intro cands c job_skills job_title min_score max_candidates hmem _hbad hsc hlen
    exact find_matches_complete job_skills job_title min_score max_candidates hmem hsc hlen
  · intro sendOk shortlists job_title selected cs res hlook hsend
    unfold send_bulk_emails_to_job_candidates at hsend
    rw [hlook] at hsend
    have hres : res = cs.foldl (send_bulk_step sendOk selected)
        (init_bulk_results job_title) := by
      cases hsend
      rfl
    subst hres
    obtain ⟨hinv1, hinv2⟩ := bulk_fold_inv sendOk selected cs (init_bulk_results job_title)
      (by intro e he; cases he) rfl
    refine ⟨hinv1, hinv2, ?_⟩
    intro cm hmem hbad hsel
    exact bulk_fold_bad_entry sendOk selected cs _ cm hmem hbad hsel

/-- C9 witness: a concrete candidate without an email address is shortlisted
yet recorded as "No email address" by the bulk sender. -/
theorem missing_email_handling_witness :
    (({ candidate :=
          { first_name := "Jane", last_name := "Doe", full_name := "Jane Doe",
            linkedin_url := "", email := "", company := "",
            position := "Python Developer", connected_on := "" },
        score := calculate_match_score
          { first_name := "Jane", last_name := "Doe", full_name := "Jane Doe",
            linkedin_url := "", email := "", company := "",
            position := "Python Developer", connected_on := "" }
          ["python"] "Python Developer",
        matched_skills := get_matched_skills
          { first_name := "Jane", last_name := "Doe", full_name := "Jane Doe",
            linkedin_url := "", email := "", company := "",
            position := "Python Developer", connected_on := "" }
          ["python"],
        job_title := "Python Developer" } : FMatch) ∈
      find_matches_for_job
        [{ first_name := "Jane", last_name := "Doe", full_name := "Jane Doe",
           linkedin_url := "", email := "", company := "",
           position := "Python Developer", connected_on := "" }]
        ["python"] "Python Developer" (1/10) 20) :=
  missing_email_handling.1
    [{ first_name := "Jane", last_name := "Doe", full_name := "Jane Doe",
       linkedin_url := "", email := "", company := "",
       position := "Python Developer", connected_on := "" }]
    { first_name := "Jane", last_name := "Doe", full_name := "Jane Doe",
      linkedin_url := "", email := "", company := "",
      position := "Python Developer", connected_on := "" }
    ["python"] "Python Developer" (1/10) 20
    (by decide) (by decide) (by with_unfolding_all decide) (by decide)

end HRAgent
